import Mathlib

/-!
Verification of the generative engine of git-aura
(src/src/generative_engine.py).

The engine is a pure, seeded pipeline: an `AuraGenerator` builds a
`VectorFlowField` (backed by seeded OpenSimplex noise), seeds a
`ParticleSystem` from the canvas centre using a golden-angle spiral plus
numpy-uniform jitter, advects the particles for a number of steps and
extracts the traced paths with their opacities.

Python floats are modelled as real numbers (`ℝ`).  The two external
libraries the engine calls are modelled as deterministic functions of the
seed, gathered in `GenEnv`:
  * `simplexNoise2 seed x y` stands for `OpenSimplex(seed=seed).noise2(x, y)`;
  * `numpyStream seed k` stands for the k-th `np.random.uniform(-5, 5)`
    draw made after `np.random.seed(seed)` (the engine's only use of the
    numpy global RNG; draws are consumed sequentially, two per particle).
The grid pre-materialization (`resolution`/`cols`/`rows`,
`get_force_grid`), `noise3d`, `get_paths` and the unrelated Vector2D
helpers (`__add__`, `__mul__`, `normalize`) are not embedded: no claim
mentions them and the simulation never calls them.
-/

noncomputable section

/-- Python's `int(x)` applied to a float: truncation toward zero. -/
def pyTrunc (x : ℝ) : ℤ := if 0 ≤ x then ⌊x⌋ else ⌈x⌉

/-- Truncation toward zero agrees with the floor on nonnegative inputs. -/
theorem pyTrunc_of_nonneg {x : ℝ} (h : 0 ≤ x) : pyTrunc x = ⌊x⌋ := if_pos h

/-- 2D vector, from the source's `Vector2D` NamedTuple. -/
structure Vector2D where
  x : ℝ
  y : ℝ

/-- `Vector2D.magnitude`: `np.sqrt(self.x ** 2 + self.y ** 2)`. -/
def Vector2D.magnitude (v : Vector2D) : ℝ := Real.sqrt (v.x ^ 2 + v.y ^ 2)

/-- A particle of the flow-field system (source dataclass `Particle`):
position, velocity (default zero), accumulated path, opacity. -/
structure Particle where
  position : Vector2D
  velocity : Vector2D
  path : List Vector2D
  opacity : ℝ

/-- `Particle.update(acceleration, max_speed)` (source lines 42-68): add the
acceleration to the velocity, clamp the result's magnitude to `max_speed`
(rescaling preserves the direction), append the current position to the path
and advance the position by the just-computed velocity. -/
def Particle.update (p : Particle) (acceleration : Vector2D) (maxSpeed : ℝ) :
    Particle :=
  let newVx := p.velocity.x + acceleration.x
  let newVy := p.velocity.y + acceleration.y
  let speed := Real.sqrt (newVx ^ 2 + newVy ^ 2)
  let v : Vector2D :=
    if speed > maxSpeed then ⟨newVx / speed * maxSpeed, newVy / speed * maxSpeed⟩
    else ⟨newVx, newVy⟩
  { position := ⟨p.position.x + v.x, p.position.y + v.y⟩
    velocity := v
    path := p.path ++ [p.position]
    opacity := p.opacity }

/-- Seeded noise source (source class `NoiseGenerator`).  The field
`noise2` stands for the `noise2` method of the `OpenSimplex` instance the
constructor builds for the given seed; the library's own algorithm is
outside this repository, so it is kept abstract. -/
structure NoiseGenerator where
  noise2 : ℝ → ℝ → ℝ

/-- `NoiseGenerator.noise2d(x, y, scale)`: sample the simplex noise at the
scaled coordinates. -/
def NoiseGenerator.noise2d (g : NoiseGenerator) (x y scale : ℝ) : ℝ :=
  g.noise2 (x * scale) (y * scale)

/-- The fBm accumulation loop of `NoiseGenerator.fractal_noise` (source
lines 138-147): state `(total, amplitude, frequency, max_value)`, one
octave per iteration; returns the final `(total, max_value)`. -/
def NoiseGenerator.fractalLoop (g : NoiseGenerator) (x y scale persistence : ℝ) :
    ℕ → ℝ → ℝ → ℝ → ℝ → ℝ × ℝ
  | 0, total, _amplitude, _frequency, maxValue => (total, maxValue)
  | n + 1, total, amplitude, frequency, maxValue =>
      g.fractalLoop x y scale persistence n
        (total + amplitude * g.noise2d (x * frequency) (y * frequency) scale)
        (amplitude * persistence) (frequency * 2) (maxValue + amplitude)

/-- `NoiseGenerator.fractal_noise(x, y, octaves, persistence, scale)`
(source lines 116-149): run the octave loop from
`total=0, amplitude=1, frequency=1, max_value=0` and divide the octave sum
by the sum of the amplitudes. -/
def NoiseGenerator.fractalNoise (g : NoiseGenerator) (x y : ℝ) (octaves : ℕ)
    (persistence scale : ℝ) : ℝ :=
  let r := g.fractalLoop x y scale persistence octaves 0 1 1 0
  r.1 / r.2

/-- Flow field (source class `VectorFlowField`): canvas dimensions, the
noise generator built from the seed, the chaos factor, and the noise
scale. -/
structure VectorFlowField where
  width : ℤ
  height : ℤ
  noiseGen : NoiseGenerator
  chaosFactor : ℝ
  noiseScale : ℝ

/-- The direction angle computed inside `VectorFlowField.get_force`
(source lines 198-216): fractal noise (3 octaves, persistence 0.6, the
field's noise scale) mapped to `[-2π, 2π]`, plus — only when
`chaos_factor > 0.3` — a secondary turbulence sample at doubled
coordinates and tripled scale, weighted by `chaos_factor × π`. -/
def VectorFlowField.forceAngle (ff : VectorFlowField) (x y : ℝ) : ℝ :=
  let noiseVal := ff.noiseGen.fractalNoise x y 3 0.6 ff.noiseScale
  let baseAngle := noiseVal * Real.pi * 2
  if ff.chaosFactor > 0.3 then
    baseAngle + ff.noiseGen.noise2d (x * 2) (y * 2) (ff.noiseScale * 3)
      * ff.chaosFactor * Real.pi
  else baseAngle

/-- The radial attenuation computed inside `VectorFlowField.get_force`
(source lines 222-226): `1 - 0.5 × (distance from centre / distance from
centre to a corner)`. -/
def VectorFlowField.radialFactor (ff : VectorFlowField) (x y : ℝ) : ℝ :=
  let cx : ℝ := (ff.width : ℝ) / 2
  let cy : ℝ := (ff.height : ℝ) / 2
  let distFromCenter := Real.sqrt ((x - cx) ^ 2 + (y - cy) ^ 2)
  let maxDist := Real.sqrt (cx ^ 2 + cy ^ 2)
  1.0 - distFromCenter / maxDist * 0.5

/-- `VectorFlowField.get_force(x, y)` (source lines 187-228): the unit
vector of the force angle, scaled by the radial factor. -/
def VectorFlowField.getForce (ff : VectorFlowField) (x y : ℝ) : Vector2D :=
  ⟨Real.cos (ff.forceAngle x y) * ff.radialFactor x y,
   Real.sin (ff.forceAngle x y) * ff.radialFactor x y⟩

/-- State of the numpy global RNG: the stream of pending
`np.random.uniform(-5, 5)` draws and the index of the next one. -/
structure RngState where
  stream : ℕ → ℝ
  pos : ℕ

/-- Particle system (source class `ParticleSystem`): the flow field, the
stored particle count `int(num_particles * particle_density)`, the owned
particles, and the canvas dimensions copied from the flow field. -/
structure ParticleSystem where
  flowField : VectorFlowField
  numParticles : ℤ
  particles : List Particle
  width : ℤ
  height : ℤ

/-- `ParticleSystem._initialize_particles` (source lines 276-303): place
particle `i` of `count` on a golden-angle spiral around the canvas centre
(radius `√(i/count) × min(width, height) × 0.35`), jitter each coordinate
by one uniform draw (two sequential draws per particle), and fade the
opacity linearly in the radius.  `count` is the stored (possibly negative)
particle count; Python's `range` yields nothing for a non-positive bound,
so the spiral formula's division by `count` is never evaluated then. -/
def initParticles (width height : ℤ) (count : ℤ) (rng : RngState) :
    List Particle :=
  let cx : ℝ := (width : ℝ) / 2
  let cy : ℝ := (height : ℝ) / 2
  let goldenAngle : ℝ := Real.pi * (3 - Real.sqrt 5)
  (List.range count.toNat).map (fun (i : ℕ) =>
    let theta := (i : ℝ) * goldenAngle
    let r := Real.sqrt ((i : ℝ) / (count : ℝ)) * ((min width height : ℤ) : ℝ) * 0.35
    let jitterIx : ℕ := rng.pos + 2 * i
    let x := cx + r * Real.cos theta + rng.stream jitterIx
    let y := cy + r * Real.sin theta + rng.stream (jitterIx + 1)
    let maxR := ((min width height : ℤ) : ℝ) * 0.35
    { position := ⟨x, y⟩
      velocity := ⟨0, 0⟩
      path := []
      opacity := 0.3 + 0.7 * (1 - r / maxR) })

/-- `ParticleSystem.__init__(flow_field, num_particles, particle_density)`
(source lines 254-274): store `int(num_particles * particle_density)` and
build the particles from the current numpy RNG state. -/
def mkParticleSystem (ff : VectorFlowField) (numParticles : ℤ)
    (particleDensity : ℝ) (rng : RngState) : ParticleSystem :=
  let n := pyTrunc ((numParticles : ℝ) * particleDensity)
  { flowField := ff
    numParticles := n
    particles := initParticles ff.width ff.height n rng
    width := ff.width
    height := ff.height }

/-- The edge-wrapping block of `ParticleSystem.simulate` (source lines
333-355): an `if/elif` on the x-coordinate against a 10-unit margin, then
an independent `if/elif` on the y-coordinate; each teleports on its own
axis only. -/
def wrapParticle (width height : ℤ) (p : Particle) : Particle :=
  let margin : ℝ := 10
  let p1 : Particle :=
    if p.position.x < -margin then
      { p with position := ⟨(width : ℝ) + margin, p.position.y⟩ }
    else if p.position.x > (width : ℝ) + margin then
      { p with position := ⟨-margin, p.position.y⟩ }
    else p
  if p1.position.y < -margin then
    { p1 with position := ⟨p1.position.x, (height : ℝ) + margin⟩ }
  else if p1.position.y > (height : ℝ) + margin then
    { p1 with position := ⟨p1.position.x, -margin⟩ }
  else p1

/-- The per-particle body of one `ParticleSystem.simulate` iteration
(source lines 317-355): sample the flow field at the particle's position,
scale the force, call `Particle.update` with `max_speed=3.0`, then wrap at
the edges. -/
def stepParticle (ff : VectorFlowField) (width height : ℤ) (forceScale : ℝ)
    (p : Particle) : Particle :=
  let force := ff.getForce p.position.x p.position.y
  let scaledForce : Vector2D := ⟨force.x * forceScale, force.y * forceScale⟩
  wrapParticle width height (p.update scaledForce 3)

/-- One whole iteration of the outer `for step in range(steps)` loop:
every particle is advanced by `stepParticle`. -/
def ParticleSystem.step (sys : ParticleSystem) (forceScale : ℝ) :
    ParticleSystem :=
  { sys with
    particles := sys.particles.map (stepParticle sys.flowField sys.width sys.height forceScale) }

/-- `ParticleSystem.simulate(steps, force_scale)` (source lines 305-357):
`steps` sequential iterations of the per-step update. -/
def ParticleSystem.simulate (sys : ParticleSystem) : ℕ → ℝ → ParticleSystem
  | 0, _ => sys
  | steps + 1, forceScale => (sys.step forceScale).simulate steps forceScale

/-- `ParticleSystem.get_paths_with_opacity` (source lines 373-385): one
`(path, opacity)` pair per particle whose path holds more than 2 points,
in particle order. -/
def ParticleSystem.getPathsWithOpacity (sys : ParticleSystem) :
    List (List (ℝ × ℝ) × ℝ) :=
  (sys.particles.filter (fun p => 2 < p.path.length)).map
    (fun p => (p.path.map (fun v => (v.x, v.y)), p.opacity))

/-- The deterministic library functions the engine calls, as functions of
the seed: `simplexNoise2 s` is `OpenSimplex(seed=s).noise2`; `numpyStream s`
is the stream of `np.random.uniform(-5, 5)` draws following
`np.random.seed(s)`. -/
structure GenEnv where
  simplexNoise2 : ℤ → ℝ → ℝ → ℝ
  numpyStream : ℤ → ℕ → ℝ

/-- `AuraGenerator` (source lines 388-411): canvas dimensions, the seed,
and the numpy global RNG state as `__init__` leaves it —
`np.random.seed(seed % 2**31)` replaces whatever state the process had. -/
structure AuraGenerator where
  width : ℤ
  height : ℤ
  seed : ℤ
  rng : RngState

/-- `AuraGenerator.__init__(width, height, seed)`: store the parameters and
reseed the numpy global RNG, discarding its previous state `globalRng`. -/
def mkAuraGenerator (env : GenEnv) (_globalRng : RngState)
    (width height seed : ℤ) : AuraGenerator :=
  { width := width
    height := height
    seed := seed
    rng := ⟨env.numpyStream (seed % 2 ^ 31), 0⟩ }

/-- The base particle count of `AuraGenerator.generate` (source line 431):
`int(50 + density * 250)` — Python `int`, i.e. truncation. -/
def auraBaseParticles (density : ℝ) : ℤ := pyTrunc (50 + density * 250)

/-- The rounding variant of the base particle count as the spec's words
state it (`particle_base = round(50 + density×250)`), for comparison with
the source's truncating `auraBaseParticles`. -/
def specRoundBase (density : ℝ) : ℤ := round ((50 : ℝ) + density * 250)

/-- The particle system `AuraGenerator.generate` builds (source lines
430-450): flow field from the generator's dimensions, seed and the mapped
noise scale `0.005 + chaos_factor × 0.015`; particle system from the base
count and the density multiplier `0.8 + density × 0.4`, drawing jitter
from the generator's RNG state. -/
def auraSystem (env : GenEnv) (gen : AuraGenerator) (density chaosFactor : ℝ) :
    ParticleSystem :=
  mkParticleSystem
    { width := gen.width
      height := gen.height
      noiseGen := ⟨env.simplexNoise2 gen.seed⟩
      chaosFactor := chaosFactor
      noiseScale := 0.005 + chaosFactor * 0.015 }
    (auraBaseParticles density) (0.8 + density * 0.4) gen.rng

/-- The value `AuraGenerator.generate` returns (source lines 413-457): run
the system for `simulation_steps` steps with force scale
`0.3 + chaos_factor × 0.4` and extract the paths with opacity. -/
def generateCore (env : GenEnv) (gen : AuraGenerator)
    (density chaosFactor : ℝ) (simulationSteps : ℕ) :
    List (List (ℝ × ℝ) × ℝ) :=
  ((auraSystem env gen density chaosFactor).simulate simulationSteps
    (0.3 + chaosFactor * 0.4)).getPathsWithOpacity

/-- Modelled from the spec: the configuration error its §7 prescribes for
invalid dimensions or out-of-range density/chaos.  The source defines no
such class and no validation anywhere. -/
inductive ConfigurationError where
  | invalid : ConfigurationError

/-- `AuraGenerator.generate` as a fallible call: the source body contains
no `raise` and no validation of its inputs, so every call returns its
computed value. -/
def AuraGenerator.generate (env : GenEnv) (gen : AuraGenerator)
    (density chaosFactor : ℝ) (simulationSteps : ℕ) :
    Except ConfigurationError (List (List (ℝ × ℝ) × ℝ)) :=
  Except.ok (generateCore env gen density chaosFactor simulationSteps)

/-- One full independent run: construct an `AuraGenerator` (reseeding the
global RNG, whatever its prior state) and call `generate`. -/
def generateRun (env : GenEnv) (globalRng : RngState) (width height seed : ℤ)
    (density chaosFactor : ℝ) (steps : ℕ) :
    Except ConfigurationError (List (List (ℝ × ℝ) × ℝ)) :=
  AuraGenerator.generate env (mkAuraGenerator env globalRng width height seed)
    density chaosFactor steps

end

noncomputable section

/-- A concrete noise generator (identically zero samples) for witnesses. -/
def zeroNoise : NoiseGenerator := ⟨fun _ _ => 0⟩

/-- A concrete library environment for witnesses. -/
def exEnv : GenEnv := ⟨fun _ _ _ => 0, fun _ _ => 0⟩

/-- A concrete numpy RNG state for witnesses. -/
def exRng : RngState := ⟨fun _ => 0, 0⟩

/-- A concrete 800×800 flow field for witnesses. -/
def exField : VectorFlowField := ⟨800, 800, zeroNoise, 0, 1 / 200⟩

/-- A concrete generator (800×800, seed 42) for witnesses. -/
def exGen : AuraGenerator := mkAuraGenerator exEnv exRng 800 800 42

/-- The particles of a freshly built system are the initial spiral. -/
theorem mkParticleSystem_particles (ff : VectorFlowField) (n : ℤ) (pd : ℝ)
    (rng : RngState) :
    (mkParticleSystem ff n pd rng).particles =
      initParticles ff.width ff.height (pyTrunc ((n : ℝ) * pd)) rng := rfl

/-- The initial spiral holds exactly `count.toNat` particles. -/
theorem initParticles_length (w h n : ℤ) (rng : RngState) :
    (initParticles w h n rng).length = n.toNat := by
  simp [initParticles]

/-- A freshly built system holds `int(num_particles × particle_density)`
particles. -/
theorem mkParticleSystem_length (ff : VectorFlowField) (n : ℤ) (pd : ℝ)
    (rng : RngState) :
    (mkParticleSystem ff n pd rng).particles.length =
      (pyTrunc ((n : ℝ) * pd)).toNat := by
  rw [mkParticleSystem_particles, initParticles_length]

/-- Simulation never changes the number of particles. -/
theorem simulate_length (sys : ParticleSystem) (k : ℕ) (fs : ℝ) :
    ((sys.simulate k fs).particles.length) = sys.particles.length := by
  induction k generalizing sys with
  | zero => rfl
  | succ n ih =>
      rw [ParticleSystem.simulate, ih]
      simp [ParticleSystem.step]

/-- C1: determinism of `AuraGenerator.generate` — two independent runs with
the same (width, height, seed, density, chaos_factor, steps), each
constructing its own `AuraGenerator`, yield identical output path lists
whatever the prior states of the process-wide numpy RNG were: construction
reseeds it from the seed alone, and all other randomness comes from the
seeded OpenSimplex noise. -/
theorem generate_deterministic (env : GenEnv) (g1 g2 : RngState)
    (width height seed : ℤ) (density chaosFactor : ℝ) (steps : ℕ) :
    generateRun env g1 width height seed density chaosFactor steps =
      generateRun env g2 width height seed density chaosFactor steps := rfl

/-- C2 counterexample: with width = 0 (non-positive), height = 0,
density = -1 and chaos_factor = 2 (both out of [0,1]),
`AuraGenerator.generate` raises nothing and returns a value — the source
performs no validation at all. -/
theorem generate_no_validation_cex :
    (AuraGenerator.generate exEnv (mkAuraGenerator exEnv exRng 0 0 42)
      (-1) 2 5).isOk = true := rfl

/-- C2 (amended): `AuraGenerator.generate` never raises a
`ConfigurationError`: for every width, height, seed, density, chaos_factor
and step count — in range or not — it returns the value computed from the
raw, unclamped parameters. -/
theorem generate_never_raises (env : GenEnv) (gen : AuraGenerator)
    (density chaosFactor : ℝ) (steps : ℕ) :
    AuraGenerator.generate env gen density chaosFactor steps =
      Except.ok (generateCore env gen density chaosFactor steps) := rfl

/-- C9: the secondary turbulence term — the noise sample at doubled
coordinates and scale `noise_scale × 3`, weighted by `chaos_factor × π` —
is added to the base angle `noise × 2π` exactly when `chaos_factor > 0.3`;
otherwise the angle is the fractal sample (3 octaves, persistence 0.6,
scale `noise_scale`) alone, and the force is always the unit vector of
that angle scaled by the radial factor. -/
theorem forceAngle_turbulence_gate (ff : VectorFlowField) (x y : ℝ) :
    (ff.chaosFactor ≤ 0.3 →
      ff.forceAngle x y =
        ff.noiseGen.fractalNoise x y 3 0.6 ff.noiseScale * Real.pi * 2)
  ∧ (0.3 < ff.chaosFactor →
      ff.forceAngle x y =
        ff.noiseGen.fractalNoise x y 3 0.6 ff.noiseScale * Real.pi * 2
        + ff.noiseGen.noise2d (x * 2) (y * 2) (ff.noiseScale * 3)
            * ff.chaosFactor * Real.pi)
  ∧ ff.getForce x y =
      ⟨Real.cos (ff.forceAngle x y) * ff.radialFactor x y,
       Real.sin (ff.forceAngle x y) * ff.radialFactor x y⟩ := by
  refine ⟨fun h => ?_, fun h => ?_, rfl⟩
  · simp only [VectorFlowField.forceAngle, if_neg (not_lt.mpr h)]
  · simp only [VectorFlowField.forceAngle, if_pos h]

end

noncomputable section

/-- Invariant of the fBm octave loop: if the running total is bounded by
the running amplitude sum and the amplitude is nonnegative, the final
total is bounded by the final amplitude sum, which only grows. -/
theorem fractalLoop_bound (g : NoiseGenerator) (x y scale persistence : ℝ)
    (hp : 0 ≤ persistence) (hn : ∀ a b : ℝ, |g.noise2 a b| ≤ 1) :
    ∀ (n : ℕ) (total amplitude frequency maxValue : ℝ),
      |total| ≤ maxValue → 0 ≤ amplitude →
      |(g.fractalLoop x y scale persistence n total amplitude frequency maxValue).1|
          ≤ (g.fractalLoop x y scale persistence n total amplitude frequency maxValue).2
        ∧ maxValue ≤
          (g.fractalLoop x y scale persistence n total amplitude frequency maxValue).2 := by
  intro n
  induction n with
  | zero => intro t a f m ht ha; exact ⟨ht, le_rfl⟩
  | succ n ih =>
      intro t a f m ht ha
      have hnoise : |g.noise2d (x * f) (y * f) scale| ≤ 1 := hn _ _
      have h1 : |t + a * g.noise2d (x * f) (y * f) scale| ≤ m + a := by
        refine (abs_add _ _).trans (add_le_add ht ?_)
        rw [abs_mul, abs_of_nonneg ha]
        exact mul_le_of_le_one_right ha hnoise
      have h2 : (0 : ℝ) ≤ a * persistence := mul_nonneg ha hp
      have hrec := ih (t + a * g.noise2d (x * f) (y * f) scale)
        (a * persistence) (f * 2) (m + a) h1 h2
      simp only [NoiseGenerator.fractalLoop]
      exact ⟨hrec.1, le_trans (le_add_of_nonneg_right ha) hrec.2⟩

/-- C5: for every coordinate pair, every octave count ≥ 1, every positive
persistence and every scale, if each underlying 2D noise sample lies in
[-1, 1] then `fractal_noise` returns a value in [-1, 1]: the octave sum is
divided by the sum of the amplitudes. -/
theorem fractal_noise_bounded (g : NoiseGenerator) (x y : ℝ) (octaves : ℕ)
    (persistence scale : ℝ) (hoct : 1 ≤ octaves) (hp : 0 < persistence)
    (hn : ∀ a b : ℝ, |g.noise2 a b| ≤ 1) :
    -1 ≤ g.fractalNoise x y octaves persistence scale
  ∧ g.fractalNoise x y octaves persistence scale ≤ 1 := by
  obtain ⟨k, rfl⟩ : ∃ k, octaves = k + 1 := ⟨octaves - 1, by omega⟩
  have hfirst : |(0 : ℝ) + 1 * g.noise2d (x * 1) (y * 1) scale| ≤ 0 + 1 := by
    simpa using hn (x * 1 * scale) (y * 1 * scale)
  have hmain := fractalLoop_bound g x y scale persistence hp.le hn k
    (0 + 1 * g.noise2d (x * 1) (y * 1) scale) (1 * persistence) (1 * 2) (0 + 1)
    hfirst (by positivity)
  set r := g.fractalLoop x y scale persistence k
    (0 + 1 * g.noise2d (x * 1) (y * 1) scale) (1 * persistence) (1 * 2) (0 + 1)
    with hr
  have hpos : (0 : ℝ) < r.2 := lt_of_lt_of_le (by norm_num) hmain.2
  have habs : |r.1 / r.2| ≤ 1 := by
    rw [abs_div, abs_of_pos hpos]
    exact (div_le_one hpos).mpr hmain.1
  have : g.fractalNoise x y (k + 1) persistence scale = r.1 / r.2 := by
    rw [NoiseGenerator.fractalNoise]
    simp only [NoiseGenerator.fractalLoop]
  rw [this]
  exact abs_le.mp habs

/-- C5 witness: the bound instantiated with the identically-zero noise
source, 3 octaves, persistence 0.6, scale 1 at the origin. -/
theorem fractal_noise_bounded_witness :
    -1 ≤ NoiseGenerator.fractalNoise ⟨fun _ _ => 0⟩ 0 0 3 (3 / 5) 1
  ∧ NoiseGenerator.fractalNoise ⟨fun _ _ => 0⟩ 0 0 3 (3 / 5) 1 ≤ 1 :=
  fractal_noise_bounded ⟨fun _ _ => 0⟩ 0 0 3 (3 / 5) 1 (by norm_num)
    (by norm_num) (fun a b => by simp)

end

noncomputable section

/-- C3 counterexample: at density 0.023 the source's `int(50 + density*250)`
truncates 55.75 to 55 while the claimed `round` gives 56, and the built
system holds 44 particles while the claim's formula predicts
⌊56 × (0.8 + 0.023×0.4)⌋ = 45. -/
theorem base_count_trunc_not_round_cex :
    auraBaseParticles (23 / 1000) = 55
  ∧ specRoundBase (23 / 1000) = 56
  ∧ ((auraSystem exEnv exGen (23 / 1000) 0).particles.length : ℤ) = 44
  ∧ ⌊((56 : ℤ) : ℝ) * (0.8 + (23 / 1000 : ℝ) * 0.4)⌋ = 45 := by
  have hb : auraBaseParticles (23 / 1000) = 55 := by
    rw [auraBaseParticles, pyTrunc_of_nonneg (by norm_num)]; norm_num
  refine ⟨hb, ?_, ?_, by norm_num⟩
  · rw [specRoundBase, round_eq]; norm_num
  · rw [auraSystem, mkParticleSystem_length, hb]
    rw [pyTrunc_of_nonneg (by norm_num)]
    norm_num

/-- C3 (amended): for density in [0,1] the base particle count is the
truncation (equivalently, the floor) of `50 + density×250` — not its
rounding — so it lies in [50, 300]; the system `generate` builds holds
exactly `⌊base_count × density_multiplier⌋` particles with
`density_multiplier = 0.8 + density×0.4`, and that count never changes
over any number of simulation steps. -/
theorem particle_count_spec (env : GenEnv) (gen : AuraGenerator)
    (density chaosFactor : ℝ) (hd0 : 0 ≤ density) (hd1 : density ≤ 1) :
    auraBaseParticles density = ⌊(50 : ℝ) + density * 250⌋
  ∧ 50 ≤ auraBaseParticles density
  ∧ auraBaseParticles density ≤ 300
  ∧ ((auraSystem env gen density chaosFactor).particles.length : ℤ) =
      ⌊((auraBaseParticles density : ℤ) : ℝ) * (0.8 + density * 0.4)⌋
  ∧ ∀ (k : ℕ) (fs : ℝ),
      ((auraSystem env gen density chaosFactor).simulate k fs).particles.length =
        (auraSystem env gen density chaosFactor).particles.length := by
  have h50 : (0 : ℝ) ≤ 50 + density * 250 := by nlinarith
  have hbase : auraBaseParticles density = ⌊(50 : ℝ) + density * 250⌋ := by
    rw [auraBaseParticles, pyTrunc_of_nonneg h50]
  have hlo : 50 ≤ auraBaseParticles density := by
    rw [hbase]
    exact Int.le_floor.mpr (by push_cast; nlinarith)
  have hhi : auraBaseParticles density ≤ 300 := by
    rw [hbase]
    have hx : ((⌊(50 : ℝ) + density * 250⌋ : ℤ) : ℝ) ≤ 300 :=
      (Int.floor_le _).trans (by nlinarith)
    exact_mod_cast hx
  have hmulpos : (0 : ℝ) ≤ (auraBaseParticles density : ℝ) * (0.8 + density * 0.4) := by
    have : (50 : ℝ) ≤ (auraBaseParticles density : ℝ) := by exact_mod_cast hlo
    nlinarith
  have hcount : ((auraSystem env gen density chaosFactor).particles.length : ℤ) =
      ⌊((auraBaseParticles density : ℤ) : ℝ) * (0.8 + density * 0.4)⌋ := by
    rw [auraSystem, mkParticleSystem_length, pyTrunc_of_nonneg hmulpos]
    exact Int.toNat_of_nonneg (Int.floor_nonneg.mpr hmulpos)
  exact ⟨hbase, hlo, hhi, hcount, fun k fs => simulate_length _ k fs⟩

/-- C3 witness: at density 0.5 (the spec's concrete scenario) the base
count is 175, within [50, 300], and the built system's size obeys the
floor formula. -/
theorem particle_count_spec_witness :
    50 ≤ auraBaseParticles (1 / 2)
  ∧ auraBaseParticles (1 / 2) ≤ 300
  ∧ ((auraSystem exEnv exGen (1 / 2) 0).particles.length : ℤ) =
      ⌊((auraBaseParticles (1 / 2) : ℤ) : ℝ) * (0.8 + (1 / 2 : ℝ) * 0.4)⌋ := by
  have h := particle_count_spec exEnv exGen (1 / 2) 0 (by norm_num) (by norm_num)
  exact ⟨h.2.1, h.2.2.1, h.2.2.2.1⟩

/-- Simulation of an empty particle list stays empty. -/
theorem simulate_particles_nil (sys : ParticleSystem) (k : ℕ) (fs : ℝ)
    (h : sys.particles = []) : (sys.simulate k fs).particles = [] :=
  List.length_eq_zero.mp ((simulate_length sys k fs).trans (by rw [h]; rfl))

/-- C10: a `ParticleSystem` whose computed particle count
`int(num_particles × particle_density)` is zero is built without error —
the spiral-placement loop body never runs, so its division by the count is
never evaluated — holds no particles, and after any number of simulation
steps `get_paths_with_opacity` returns the empty list. -/
theorem zero_particles_spec (ff : VectorFlowField) (n : ℤ) (pd : ℝ)
    (rng : RngState) (h : pyTrunc ((n : ℝ) * pd) = 0) :
    (mkParticleSystem ff n pd rng).particles = []
  ∧ ∀ (k : ℕ) (fs : ℝ),
      ((mkParticleSystem ff n pd rng).simulate k fs).getPathsWithOpacity = [] := by
  have hp : (mkParticleSystem ff n pd rng).particles = [] := by
    rw [mkParticleSystem_particles, h]
    rfl
  refine ⟨hp, fun k fs => ?_⟩
  rw [ParticleSystem.getPathsWithOpacity, simulate_particles_nil _ k fs hp]
  rfl

/-- C10 witness: a zero-particle system (base count 0, multiplier 1) on
the 800×800 example field, run for 7 steps. -/
theorem zero_particles_spec_witness :
    (mkParticleSystem exField 0 1 exRng).particles = []
  ∧ ((mkParticleSystem exField 0 1 exRng).simulate 7 (1 / 2)).getPathsWithOpacity
      = [] := by
  have h : pyTrunc (((0 : ℤ) : ℝ) * 1) = 0 := by
    rw [pyTrunc_of_nonneg (by norm_num)]; norm_num
  exact ⟨(zero_particles_spec exField 0 1 exRng h).1,
    (zero_particles_spec exField 0 1 exRng h).2 7 (1 / 2)⟩

end

noncomputable section

/-- Scaling both components of a vector scales its magnitude by the
absolute factor. -/
theorem magnitude_scale (a b c : ℝ) :
    Vector2D.magnitude ⟨a * c, b * c⟩ = |c| * Vector2D.magnitude ⟨a, b⟩ := by
  show Real.sqrt ((a * c) ^ 2 + (b * c) ^ 2) = |c| * Real.sqrt (a ^ 2 + b ^ 2)
  have h : (a * c) ^ 2 + (b * c) ^ 2 = c ^ 2 * (a ^ 2 + b ^ 2) := by ring
  rw [h, Real.sqrt_mul (sq_nonneg c), Real.sqrt_sq_eq_abs]

/-- The magnitude of a unit direction scaled by a factor is the factor's
absolute value. -/
theorem magnitude_cos_sin (t r : ℝ) :
    Vector2D.magnitude ⟨Real.cos t * r, Real.sin t * r⟩ = |r| := by
  show Real.sqrt ((Real.cos t * r) ^ 2 + (Real.sin t * r) ^ 2) = |r|
  have h : (Real.cos t * r) ^ 2 + (Real.sin t * r) ^ 2 = r ^ 2 := by
    have hs := Real.sin_sq_add_cos_sq t
    nlinarith [hs]
  rw [h, Real.sqrt_sq_eq_abs]

/-- C6: one `Particle.update` call with positive `max_speed` (1) leaves the
candidate velocity `velocity + acceleration` alone when its magnitude is
within `max_speed`, and otherwise rescales it to magnitude exactly
`max_speed` with direction preserved; (2) appends exactly the pre-update
position to the path; (3) advances the position by the newly computed,
post-clamp velocity. -/
theorem particle_update_spec (p : Particle) (acc : Vector2D) (maxSpeed : ℝ)
    (hms : 0 < maxSpeed) :
    (Vector2D.magnitude ⟨p.velocity.x + acc.x, p.velocity.y + acc.y⟩ ≤ maxSpeed →
        (p.update acc maxSpeed).velocity = ⟨p.velocity.x + acc.x, p.velocity.y + acc.y⟩)
  ∧ (maxSpeed < Vector2D.magnitude ⟨p.velocity.x + acc.x, p.velocity.y + acc.y⟩ →
        (p.update acc maxSpeed).velocity =
          ⟨(p.velocity.x + acc.x)
              / Vector2D.magnitude ⟨p.velocity.x + acc.x, p.velocity.y + acc.y⟩ * maxSpeed,
           (p.velocity.y + acc.y)
              / Vector2D.magnitude ⟨p.velocity.x + acc.x, p.velocity.y + acc.y⟩ * maxSpeed⟩
        ∧ Vector2D.magnitude (p.update acc maxSpeed).velocity = maxSpeed)
  ∧ (p.update acc maxSpeed).path = p.path ++ [p.position]
  ∧ (p.update acc maxSpeed).position =
      ⟨p.position.x + (p.update acc maxSpeed).velocity.x,
       p.position.y + (p.update acc maxSpeed).velocity.y⟩ := by
  have hmag : Vector2D.magnitude ⟨p.velocity.x + acc.x, p.velocity.y + acc.y⟩
      = Real.sqrt ((p.velocity.x + acc.x) ^ 2 + (p.velocity.y + acc.y) ^ 2) := rfl
  refine ⟨fun h => ?_, fun h => ?_, rfl, rfl⟩
  · simp only [Particle.update]
    rw [if_neg (not_lt.mpr (hmag ▸ h))]
  · rw [hmag] at h
    constructor
    · simp only [Particle.update]
      rw [if_pos h, hmag]
    · have hspos : 0 < Real.sqrt ((p.velocity.x + acc.x) ^ 2 + (p.velocity.y + acc.y) ^ 2) :=
        lt_trans hms h
      simp only [Particle.update]
      rw [if_pos h]
      have h1 : (p.velocity.x + acc.x)
            / Real.sqrt ((p.velocity.x + acc.x) ^ 2 + (p.velocity.y + acc.y) ^ 2) * maxSpeed
          = (p.velocity.x + acc.x)
            * (maxSpeed / Real.sqrt ((p.velocity.x + acc.x) ^ 2 + (p.velocity.y + acc.y) ^ 2)) := by
        ring
      have h2 : (p.velocity.y + acc.y)
            / Real.sqrt ((p.velocity.x + acc.x) ^ 2 + (p.velocity.y + acc.y) ^ 2) * maxSpeed
          = (p.velocity.y + acc.y)
            * (maxSpeed / Real.sqrt ((p.velocity.x + acc.x) ^ 2 + (p.velocity.y + acc.y) ^ 2)) := by
        ring
      rw [h1, h2, magnitude_scale, abs_of_pos (div_pos hms hspos), ← hmag]
      rw [hmag, div_mul_cancel₀ _ hspos.ne']

/-- C6 witness: updating a particle moving at speed 5 with zero
acceleration and `max_speed = 3` clamps the speed to exactly 3 and appends
the pre-update position. -/
theorem particle_update_spec_witness :
    ((Particle.mk ⟨7, 8⟩ ⟨5, 0⟩ [] 1).update ⟨0, 0⟩ 3).path = [⟨7, 8⟩]
  ∧ Vector2D.magnitude (((Particle.mk ⟨7, 8⟩ ⟨5, 0⟩ [] 1).update ⟨0, 0⟩ 3).velocity) = 3 := by
  have h := particle_update_spec (Particle.mk ⟨7, 8⟩ ⟨5, 0⟩ [] 1) ⟨0, 0⟩ 3 (by norm_num)
  refine ⟨h.2.2.1, (h.2.1 ?_).2⟩
  show (3 : ℝ) < Real.sqrt ((5 + 0) ^ 2 + (0 + 0) ^ 2)
  have : ((5 : ℝ) + 0) ^ 2 + (0 + 0) ^ 2 = 5 ^ 2 := by norm_num
  rw [this, Real.sqrt_sq (by norm_num)]
  norm_num

end

noncomputable section

/-- Edge wrapping never touches the velocity. -/
theorem wrapParticle_velocity (w h : ℤ) (p : Particle) :
    (wrapParticle w h p).velocity = p.velocity := by
  simp only [wrapParticle]
  split_ifs <;> rfl

/-- After one `Particle.update` with nonnegative `max_speed` the velocity
magnitude is at most `max_speed`, whatever it was before. -/
theorem update_velocity_le (p : Particle) (acc : Vector2D) (maxSpeed : ℝ)
    (hms : 0 ≤ maxSpeed) :
    Vector2D.magnitude (p.update acc maxSpeed).velocity ≤ maxSpeed := by
  simp only [Particle.update]
  by_cases h :
      Real.sqrt ((p.velocity.x + acc.x) ^ 2 + (p.velocity.y + acc.y) ^ 2) > maxSpeed
  · rw [if_pos h]
    have hspos : 0 < Real.sqrt ((p.velocity.x + acc.x) ^ 2 + (p.velocity.y + acc.y) ^ 2) :=
      lt_of_le_of_lt hms h
    have h1 : (p.velocity.x + acc.x)
          / Real.sqrt ((p.velocity.x + acc.x) ^ 2 + (p.velocity.y + acc.y) ^ 2) * maxSpeed
        = (p.velocity.x + acc.x)
          * (maxSpeed / Real.sqrt ((p.velocity.x + acc.x) ^ 2 + (p.velocity.y + acc.y) ^ 2)) := by
      ring
    have h2 : (p.velocity.y + acc.y)
          / Real.sqrt ((p.velocity.x + acc.x) ^ 2 + (p.velocity.y + acc.y) ^ 2) * maxSpeed
        = (p.velocity.y + acc.y)
          * (maxSpeed / Real.sqrt ((p.velocity.x + acc.x) ^ 2 + (p.velocity.y + acc.y) ^ 2)) := by
      ring
    rw [h1, h2, magnitude_scale, abs_of_nonneg (div_nonneg hms hspos.le)]
    have hmag : Vector2D.magnitude ⟨p.velocity.x + acc.x, p.velocity.y + acc.y⟩
        = Real.sqrt ((p.velocity.x + acc.x) ^ 2 + (p.velocity.y + acc.y) ^ 2) := rfl
    rw [hmag, div_mul_cancel₀ _ hspos.ne']
  · rw [if_neg h]
    exact not_lt.mp h

/-- One per-particle simulation step leaves the velocity magnitude at
most 3: the update clamps with `max_speed = 3.0` and wrapping preserves
velocity. -/
theorem stepParticle_velocity_le (ff : VectorFlowField) (w h : ℤ) (fs : ℝ)
    (p : Particle) :
    Vector2D.magnitude (stepParticle ff w h fs p).velocity ≤ 3 := by
  simp only [stepParticle]
  rw [wrapParticle_velocity]
  exact update_velocity_le _ _ _ (by norm_num)

/-- C7: after every simulation step (any count ≥ 1 of steps, any force
scale) the velocity magnitude of every particle of the system is at most
3, the `max_speed` used by the simulation loop — the bound is restored by
each step's clamped update and untouched by wrapping. -/
theorem simulate_velocity_bounded (sys : ParticleSystem) (k : ℕ) (fs : ℝ)
    (hk : 1 ≤ k) :
    ∀ p ∈ (sys.simulate k fs).particles, Vector2D.magnitude p.velocity ≤ 3 := by
  obtain ⟨j, rfl⟩ : ∃ j, k = j + 1 := ⟨k - 1, by omega⟩
  clear hk
  induction j generalizing sys with
  | zero =>
      intro p hp
      rw [ParticleSystem.simulate, ParticleSystem.simulate] at hp
      simp only [ParticleSystem.step] at hp
      obtain ⟨q, _, rfl⟩ := List.mem_map.mp hp
      exact stepParticle_velocity_le _ _ _ _ _
  | succ j ih =>
      intro p hp
      rw [ParticleSystem.simulate] at hp
      exact ih (sys.step fs) p hp

/-- Concrete one-particle system for the C7 witness: a single stationary
particle at the centre of the 800×800 example field. -/
def exParticle : Particle := ⟨⟨400, 400⟩, ⟨0, 0⟩, [], 1⟩

/-- Concrete particle system for the C7 witness. -/
def exSystem : ParticleSystem := ⟨exField, 1, [exParticle], 800, 800⟩

/-- C7 witness: after one step of the concrete one-particle system, the
(unique) particle's velocity magnitude is at most 3. -/
theorem simulate_velocity_bounded_witness :
    Vector2D.magnitude (stepParticle exField 800 800 1 exParticle).velocity ≤ 3 := by
  refine simulate_velocity_bounded exSystem 1 1 (by norm_num)
    (stepParticle exField 800 800 1 exParticle) ?_
  rw [ParticleSystem.simulate, ParticleSystem.simulate]
  simp [ParticleSystem.step, exSystem]

end

noncomputable section

/-- C8: on a positive canvas, edge wrapping treats the two axes
independently and never touches velocity, path or opacity: an
x-coordinate beyond `width+10` is relocated to `-10`, one below `-10` to
`width+10`, and one inside `[-10, width+10]` is preserved — and
symmetrically for the y-axis against `height+10`, each axis examining and
changing only its own coordinate. -/
theorem wrap_particle_spec (width height : ℤ) (p : Particle)
    (hw : 0 < width) (hh : 0 < height) :
    (wrapParticle width height p).velocity = p.velocity
  ∧ (wrapParticle width height p).path = p.path
  ∧ (wrapParticle width height p).opacity = p.opacity
  ∧ ((width : ℝ) + 10 < p.position.x → (wrapParticle width height p).position.x = -10)
  ∧ (p.position.x < -10 → (wrapParticle width height p).position.x = (width : ℝ) + 10)
  ∧ (-10 ≤ p.position.x → p.position.x ≤ (width : ℝ) + 10 →
        (wrapParticle width height p).position.x = p.position.x)
  ∧ ((height : ℝ) + 10 < p.position.y → (wrapParticle width height p).position.y = -10)
  ∧ (p.position.y < -10 → (wrapParticle width height p).position.y = (height : ℝ) + 10)
  ∧ (-10 ≤ p.position.y → p.position.y ≤ (height : ℝ) + 10 →
        (wrapParticle width height p).position.y = p.position.y) := by
  simp only [wrapParticle]
  split_ifs <;>
    refine ⟨rfl, rfl, rfl, ?_, ?_, ?_, ?_, ?_, ?_⟩ <;>
    intros <;>
    first
      | rfl
      | (exfalso
         have hw' : (0 : ℝ) < (width : ℝ) := by exact_mod_cast hw
         have hh' : (0 : ℝ) < (height : ℝ) := by exact_mod_cast hh
         linarith)

end

noncomputable section

/-- Concrete particle for the C8 witness: x = 850 escapes the 800-wide
canvas beyond the margin, y = 5 is in range. -/
def exWrapParticle : Particle := ⟨⟨850, 5⟩, ⟨1, 2⟩, [⟨0, 0⟩], 1 / 2⟩

/-- C8 witness: on an 800×800 canvas a particle at x = 850 > 810 is
relocated to x = -10 with its y-coordinate, velocity, path and opacity all
unchanged. -/
theorem wrap_particle_spec_witness :
    (wrapParticle 800 800 exWrapParticle).position.x = -10
  ∧ (wrapParticle 800 800 exWrapParticle).position.y = exWrapParticle.position.y
  ∧ (wrapParticle 800 800 exWrapParticle).velocity = exWrapParticle.velocity
  ∧ (wrapParticle 800 800 exWrapParticle).path = exWrapParticle.path
  ∧ (wrapParticle 800 800 exWrapParticle).opacity = exWrapParticle.opacity := by
  have h := wrap_particle_spec 800 800 exWrapParticle (by norm_num) (by norm_num)
  refine ⟨h.2.2.2.1 ?_, h.2.2.2.2.2.2.2.2 ?_ ?_, h.1, h.2.1, h.2.2.1⟩
  · show ((800 : ℤ) : ℝ) + 10 < (850 : ℝ)
    norm_num
  · show (-10 : ℝ) ≤ (5 : ℝ)
    norm_num
  · show (5 : ℝ) ≤ ((800 : ℤ) : ℝ) + 10
    norm_num

/-- C4 counterexample: at the margin corner (-10, -10) of an 800×800
field — a position wrapping can produce, hence one `get_force` is
evaluated at during simulation — the radial factor is
1 − 0.5 × (410√2)/(400√2) = 39/80 = 0.4875 < 0.5. -/
theorem radial_factor_margin_cex :
    VectorFlowField.radialFactor exField (-10) (-10) < 1 / 2 := by
  have hval : VectorFlowField.radialFactor exField (-10) (-10)
      = 1.0 - Real.sqrt (((-10 : ℝ) - 400) ^ 2 + ((-10 : ℝ) - 400) ^ 2)
          / Real.sqrt ((400 : ℝ) ^ 2 + (400 : ℝ) ^ 2) * 0.5 := by
    simp only [VectorFlowField.radialFactor, exField]
    norm_num
  have h1 : ((-10 : ℝ) - 400) ^ 2 + ((-10 : ℝ) - 400) ^ 2
      = (41 / 40) ^ 2 * ((400 : ℝ) ^ 2 + (400 : ℝ) ^ 2) := by norm_num
  have h2 : (0 : ℝ) < Real.sqrt ((400 : ℝ) ^ 2 + (400 : ℝ) ^ 2) :=
    Real.sqrt_pos.mpr (by norm_num)
  rw [hval, h1, Real.sqrt_mul (by positivity), Real.sqrt_sq (by norm_num),
    mul_div_assoc, div_self h2.ne']
  norm_num

/-- C4 (amended): at every on-canvas position (0 ≤ x ≤ width,
0 ≤ y ≤ height of a positive canvas) the radial factor lies in [0.5, 1.0]
and the force returned by `get_force` has magnitude at most 1; positions
inside the 10-unit wrap margin outside the canvas can push the factor
below 0.5. -/
theorem radial_factor_canvas_bounds (ff : VectorFlowField) (x y : ℝ)
    (hw : 0 < ff.width) (hh : 0 < ff.height)
    (hx0 : 0 ≤ x) (hx1 : x ≤ (ff.width : ℝ))
    (hy0 : 0 ≤ y) (hy1 : y ≤ (ff.height : ℝ)) :
    1 / 2 ≤ ff.radialFactor x y
  ∧ ff.radialFactor x y ≤ 1
  ∧ Vector2D.magnitude (ff.getForce x y) ≤ 1 := by
  have hw' : (0 : ℝ) < (ff.width : ℝ) := by exact_mod_cast hw
  have hh' : (0 : ℝ) < (ff.height : ℝ) := by exact_mod_cast hh
  have hrf : ff.radialFactor x y
      = 1.0 - Real.sqrt ((x - (ff.width : ℝ) / 2) ^ 2 + (y - (ff.height : ℝ) / 2) ^ 2)
          / Real.sqrt (((ff.width : ℝ) / 2) ^ 2 + ((ff.height : ℝ) / 2) ^ 2) * 0.5 := rfl
  have hdle : (x - (ff.width : ℝ) / 2) ^ 2 + (y - (ff.height : ℝ) / 2) ^ 2
      ≤ ((ff.width : ℝ) / 2) ^ 2 + ((ff.height : ℝ) / 2) ^ 2 := by
    have h1 : (x - (ff.width : ℝ) / 2) ^ 2 ≤ ((ff.width : ℝ) / 2) ^ 2 :=
      sq_le_sq' (by linarith) (by linarith)
    have h2 : (y - (ff.height : ℝ) / 2) ^ 2 ≤ ((ff.height : ℝ) / 2) ^ 2 :=
      sq_le_sq' (by linarith) (by linarith)
    linarith
  have hmd : 0 < Real.sqrt (((ff.width : ℝ) / 2) ^ 2 + ((ff.height : ℝ) / 2) ^ 2) :=
    Real.sqrt_pos.mpr (by positivity)
  have hr0 : 0 ≤ Real.sqrt ((x - (ff.width : ℝ) / 2) ^ 2 + (y - (ff.height : ℝ) / 2) ^ 2)
      / Real.sqrt (((ff.width : ℝ) / 2) ^ 2 + ((ff.height : ℝ) / 2) ^ 2) := by
    positivity
  have hr1 : Real.sqrt ((x - (ff.width : ℝ) / 2) ^ 2 + (y - (ff.height : ℝ) / 2) ^ 2)
      / Real.sqrt (((ff.width : ℝ) / 2) ^ 2 + ((ff.height : ℝ) / 2) ^ 2) ≤ 1 :=
    (div_le_one hmd).mpr (Real.sqrt_le_sqrt hdle)
  have hlo : 1 / 2 ≤ ff.radialFactor x y := by rw [hrf]; norm_num; linarith
  have hhi : ff.radialFactor x y ≤ 1 := by rw [hrf]; norm_num; linarith
  refine ⟨hlo, hhi, ?_⟩
  have hmagf : Vector2D.magnitude (ff.getForce x y) = |ff.radialFactor x y| :=
    magnitude_cos_sin (ff.forceAngle x y) (ff.radialFactor x y)
  rw [hmagf, abs_of_nonneg (by linarith)]
  exact hhi

/-- C4 witness: at the canvas centre (400, 400) of the 800×800 example
field the radial factor is within [0.5, 1] and the force magnitude is at
most 1. -/
theorem radial_factor_canvas_bounds_witness :
    1 / 2 ≤ VectorFlowField.radialFactor exField 400 400
  ∧ VectorFlowField.radialFactor exField 400 400 ≤ 1
  ∧ Vector2D.magnitude (VectorFlowField.getForce exField 400 400) ≤ 1 :=
  radial_factor_canvas_bounds exField 400 400 (by norm_num [exField])
    (by norm_num [exField]) (by norm_num) (by norm_num [exField])
    (by norm_num) (by norm_num [exField])

end
